import Mathlib

/-!
Verification of the HDT simulator core (solvent-extraction stage engine,
prescriptive pH setpoint optimizer, Th/U compliance checker) against its
specification.  The three functions are embedded over exact rational
arithmetic; JavaScript numeric inputs that may be NaN are modelled by an
explicit sum type, and object reads that may miss a key by Option.
-/

namespace HDT

/-- A JavaScript numeric value: either NaN or a (finite) number, modelled
as a rational. -/
inductive JVal where
  | nan : JVal
  | num : ℚ → JVal

/-- Semantics of the JavaScript expression `v || 0` on a numeric value:
NaN reads as 0, any number reads as itself (0 is falsy but `0 || 0 = 0`). -/
def JVal.orZero : JVal → ℚ
  | JVal.nan => 0
  | JVal.num q => q

/-- An input concentration object: a key may be absent. -/
abbrev InMap := String → Option JVal

/-- Semantics of `m[el] || 0` on a JavaScript object: a missing key or a
NaN value reads as 0. -/
def readZero (m : InMap) (el : String) : ℚ :=
  match m el with
  | none => 0
  | some v => v.orZero

/-- Exact-arithmetic semantics of `parseFloat(x.toFixed(d))`: round to `d`
decimal places, ties resolved toward the larger candidate, as ECMA-262
specifies for `toFixed`. -/
def toFixedVal (d : ℕ) (q : ℚ) : ℚ :=
  (((q * 10 ^ d + 1 / 2).floor : ℤ) : ℚ) / 10 ^ d

/-- The fixed ordered set of tracked species (`targetElements` in the
source). -/
def targetElements : List String := ["Nd", "Fe", "Th", "U"]

/-- Sanitized phase ratio: NaN falls back to 1.0, then the value is
floored at 0.0001 (`safeR` in the source). -/
def safeROf (phase_rat : JVal) : ℚ :=
  max (1 / 10000) (match phase_rat with | JVal.nan => 1 | JVal.num q => q)

/-- The unrounded aqueous output concentration for one species:
`(Cin_aq + safeR * Cin_org) / (1 + safeR * D)` after clamping each input
to be non-negative. -/
def stageCoutAq (aq_in_conc org_in_conc D_values : InMap) (safeR : ℚ) (el : String) : ℚ :=
  (max 0 (readZero aq_in_conc el) + safeR * max 0 (readZero org_in_conc el)) /
    (1 + safeR * max 0 (readZero D_values el))

/-- The unrounded organic output concentration for one species: D times
the unrounded aqueous output. -/
def stageCoutOrg (aq_in_conc org_in_conc D_values : InMap) (safeR : ℚ) (el : String) : ℚ :=
  max 0 (readZero D_values el) *
    stageCoutAq aq_in_conc org_in_conc D_values safeR el

/-- An output concentration object, keys in insertion order. -/
abbrev Concentrations := List (String × ℚ)

/-- Reading a key of an output object. -/
def getConc (m : Concentrations) (el : String) : Option ℚ :=
  (m.find? (fun p => p.1 == el)).map Prod.snd

structure SimulationResult where
  aqOut : Concentrations
  orgOut : Concentrations

/-- Module 1 of the source, `simulate_sx_stage`: for each tracked species
the unrounded stage outputs are computed and rounded to 4 decimals. -/
def simulate_sx_stage (aq_in_conc org_in_conc : InMap) (phase_rat : JVal)
    (D_values : InMap) : SimulationResult :=
  let safeR := safeROf phase_rat
  { aqOut := targetElements.map fun el =>
      (el, toFixedVal 4 (stageCoutAq aq_in_conc org_in_conc D_values safeR el))
  , orgOut := targetElements.map fun el =>
      (el, toFixedVal 4 (stageCoutOrg aq_in_conc org_in_conc D_values safeR el)) }

/-- NaN current pH sanitizes to 0. -/
def cPHOf : JVal → ℚ
  | JVal.nan => 0
  | JVal.num q => q

/-- NaN target pH sanitizes to 1.8. -/
def tPHOf : JVal → ℚ
  | JVal.nan => 18 / 10
  | JVal.num q => q

structure OptimizationResult where
  new_pH_setpoint : ℚ
  action : String
  predicted_efficiency : ℚ

/-- Module 2 of the source, `prescriptive_setpoint_optimizer`.  The call
`Math.random()` is made explicit as the argument `rand`; the source
computes `noise = (rand - 0.5) * 0.05` when not deterministic. -/
def prescriptive_setpoint_optimizer (current_pH target_optimal_pH : JVal)
    (deterministic : Bool) (rand : ℚ) : OptimizationResult :=
  let cPH := cPHOf current_pH
  let tPH := tPHOf target_optimal_pH
  let noise := if deterministic then 0 else (rand - 5 / 10) * (5 / 100)
  let efficiency := 8 / 10 - 2 / 10 * (cPH - tPH) ^ 2 + noise
  let delta := tPH - cPH
  let correction_step := delta * (5 / 10)
  let setpoint := toFixedVal 2 (cPH + correction_step)
  let action :=
    if correction_step > 1 / 100 then "Increase Acid/Base Flow (Raise pH)"
    else if correction_step < -(1 / 100) then "Adjust Acid/Base Flow (Lower pH)"
    else "Maintain pH"
  { new_pH_setpoint := setpoint
  , action := action
  , predicted_efficiency := max 0 (min 1 efficiency) }

structure ComplianceResult where
  total_conc_gl : ℚ
  is_compliant : Bool
  finding : String

/-- NaN limit sanitizes to the default 0.1. -/
def safeLimitOf : JVal → ℚ
  | JVal.nan => 1 / 10
  | JVal.num q => q

/-- Module 3 of the source, `check_th_u_compliance`: negative or NaN
concentrations clamp to 0, compliance is a strict comparison of the
unrounded total against the sanitized limit, and the reported total is
rounded to 4 decimals. -/
def check_th_u_compliance (th_conc u_conc : JVal) (limit : JVal) : ComplianceResult :=
  let safeTh := max 0 th_conc.orZero
  let safeU := max 0 u_conc.orZero
  let total := safeTh + safeU
  let compliant := decide (total < safeLimitOf limit)
  { total_conc_gl := toFixedVal 4 total
  , is_compliant := compliant
  , finding :=
      if compliant then "Meets NCMM Th/U safety requirements."
      else "EXCEEDS Regulatory Limit. Adjust flowsheet." }

/-- The everywhere-empty input object. -/
def mapEmpty : InMap := fun _ => none

/-- The input object with a single key, Nd. -/
def mapNd (q : ℚ) : InMap := fun el => if el = "Nd" then some (JVal.num q) else none

/-!
Helper lemmas.
-/

/-- The computable floor used by `toFixedVal` agrees with the
mathematical floor. -/
theorem ratFloor_eq_intFloor (q : ℚ) : q.floor = ⌊q⌋ := by
  rw [Rat.floor_def, Rat.floor_def']

/-- Evaluation rule for `toFixedVal`: pinning down the floor by the usual
two inequalities. -/
theorem toFixedVal_eval (d : ℕ) (q : ℚ) (z : ℤ) (h1 : (z : ℚ) ≤ q * 10 ^ d + 1 / 2)
    (h2 : q * 10 ^ d + 1 / 2 < z + 1) : toFixedVal d q = (z : ℚ) / 10 ^ d := by
  unfold toFixedVal
  rw [ratFloor_eq_intFloor, Int.floor_eq_iff.mpr ⟨h1, h2⟩]

/-- Rounding zero gives zero. -/
theorem toFixedVal_zero (d : ℕ) : toFixedVal d 0 = 0 := by
  rw [toFixedVal_eval d 0 0 (by norm_num) (by norm_num)]
  norm_num

/-- Rounding a non-negative rational to `d` decimals gives a non-negative
result. -/
theorem toFixedVal_nonneg (d : ℕ) (q : ℚ) (hq : 0 ≤ q) : 0 ≤ toFixedVal d q := by
  unfold toFixedVal
  rw [ratFloor_eq_intFloor]
  apply div_nonneg _ (by positivity)
  have hz : (0 : ℤ) ≤ ⌊q * 10 ^ d + 1 / 2⌋ := by
    apply Int.le_floor.mpr
    push_cast
    have h10 : (0 : ℚ) ≤ 10 ^ d := by positivity
    nlinarith
  exact_mod_cast hz

/-- Rounding to `d` decimals moves a value by at most half an ulp. -/
theorem toFixedVal_abs_sub_le (d : ℕ) (q : ℚ) : |toFixedVal d q - q| ≤ 1 / (2 * 10 ^ d) := by
  unfold toFixedVal
  rw [ratFloor_eq_intFloor]
  have hp : (0 : ℚ) < 10 ^ d := by positivity
  have h1 : ((⌊q * 10 ^ d + 1 / 2⌋ : ℤ) : ℚ) ≤ q * 10 ^ d + 1 / 2 := Int.floor_le _
  have h2 : q * 10 ^ d + 1 / 2 - 1 < ((⌊q * 10 ^ d + 1 / 2⌋ : ℤ) : ℚ) := Int.sub_one_lt_floor _
  have key : |((⌊q * 10 ^ d + 1 / 2⌋ : ℤ) : ℚ) - q * 10 ^ d| ≤ 1 / 2 := by
    rw [abs_le]
    constructor <;> linarith
  have hyq : q * 10 ^ d / 10 ^ d = q := by field_simp
  calc |((⌊q * 10 ^ d + 1 / 2⌋ : ℤ) : ℚ) / 10 ^ d - q|
      = |(((⌊q * 10 ^ d + 1 / 2⌋ : ℤ) : ℚ) - q * 10 ^ d) / 10 ^ d| := by rw [sub_div, hyq]
    _ = |((⌊q * 10 ^ d + 1 / 2⌋ : ℤ) : ℚ) - q * 10 ^ d| / 10 ^ d := by
        rw [abs_div, abs_of_pos hp]
    _ ≤ (1 / 2) / 10 ^ d := by gcongr
    _ = 1 / (2 * 10 ^ d) := by ring

/-- The sanitized phase ratio is strictly positive. -/
theorem safeROf_pos (pr : JVal) : 0 < safeROf pr :=
  lt_of_lt_of_le (by norm_num) (le_max_left _ _)

/-- Reading the Nd key of the one-key map. -/
theorem readZero_mapNd (q : ℚ) : readZero (mapNd q) "Nd" = q := by
  unfold readZero mapNd
  rw [if_pos rfl]
  rfl

/-- Reading any other key of the one-key map. -/
theorem readZero_mapNd_ne (q : ℚ) (el : String) (h : el ≠ "Nd") :
    readZero (mapNd q) el = 0 := by
  unfold readZero mapNd
  rw [if_neg h]

/-- Reading any key of the empty map. -/
theorem readZero_mapEmpty (el : String) : readZero mapEmpty el = 0 := rfl

/-- Looking up a key of a map-built association list, when the key is in
the key list. -/
theorem getConc_map_of_mem (f : String → ℚ) (l : List String) (k : String) (hk : k ∈ l) :
    getConc (l.map fun el => (el, f el)) k = some (f k) := by
  induction l with
  | nil => cases hk
  | cons a t ih =>
    rcases List.mem_cons.mp hk with h | h
    · subst h
      simp [getConc]
    · by_cases hak : a = k
      · subst hak
        simp [getConc]
      · have hbeq : (a == k) = false := by
          simp [hak]
        simp only [List.map_cons, getConc, List.find?_cons, hbeq]
        exact ih h

/-- Looking up a key of a map-built association list, when the key is not
in the key list. -/
theorem getConc_map_of_not_mem (f : String → ℚ) (l : List String) (k : String) (hk : k ∉ l) :
    getConc (l.map fun el => (el, f el)) k = none := by
  induction l with
  | nil => rfl
  | cons a t ih =>
    have hak : (a == k) = false := by
      simp only [beq_eq_false_iff_ne, ne_eq]
      intro h
      exact hk (h ▸ List.mem_cons_self a t)
    have hkt : k ∉ t := fun h => hk (List.mem_cons_of_mem a h)
    simp only [List.map_cons, getConc, List.find?_cons, hak]
    exact ih hkt

/-- The keys of a map-built association list are the key list itself. -/
theorem keys_map_pair (f : String → ℚ) (l : List String) :
    (l.map fun el => (el, f el)).map Prod.fst = l := by
  induction l with
  | nil => rfl
  | cons a t ih => simp only [List.map_cons, ih]

/-- The aqueous output object of the simulator, in map form. -/
theorem simulate_aqOut_eq (aq_in_conc org_in_conc : InMap) (phase_rat : JVal)
    (D_values : InMap) :
    (simulate_sx_stage aq_in_conc org_in_conc phase_rat D_values).aqOut
      = targetElements.map fun el =>
          (el, toFixedVal 4 (stageCoutAq aq_in_conc org_in_conc D_values (safeROf phase_rat) el)) :=
  rfl

/-- The organic output object of the simulator, in map form. -/
theorem simulate_orgOut_eq (aq_in_conc org_in_conc : InMap) (phase_rat : JVal)
    (D_values : InMap) :
    (simulate_sx_stage aq_in_conc org_in_conc phase_rat D_values).orgOut
      = targetElements.map fun el =>
          (el, toFixedVal 4 (stageCoutOrg aq_in_conc org_in_conc D_values (safeROf phase_rat) el)) :=
  rfl

/-- Exact mass balance of one stage in unrounded arithmetic, for any
non-negative effective phase ratio. -/
theorem stage_mass_balance (aq_in_conc org_in_conc D_values : InMap) (R : ℚ) (hR : 0 ≤ R)
    (el : String) :
    max 0 (readZero aq_in_conc el) + R * max 0 (readZero org_in_conc el)
      = stageCoutAq aq_in_conc org_in_conc D_values R el
          + R * stageCoutOrg aq_in_conc org_in_conc D_values R el := by
  unfold stageCoutOrg stageCoutAq
  have hD : (0 : ℚ) ≤ max 0 (readZero D_values el) := le_max_left _ _
  have hden : (0 : ℚ) < 1 + R * max 0 (readZero D_values el) := by nlinarith
  field_simp
  ring

/-- The unrounded aqueous output is non-negative. -/
theorem stageCoutAq_nonneg (aq_in_conc org_in_conc D_values : InMap) (R : ℚ) (hR : 0 ≤ R)
    (el : String) : 0 ≤ stageCoutAq aq_in_conc org_in_conc D_values R el := by
  unfold stageCoutAq
  have h1 : (0 : ℚ) ≤ max 0 (readZero aq_in_conc el) := le_max_left _ _
  have h2 : (0 : ℚ) ≤ max 0 (readZero org_in_conc el) := le_max_left _ _
  have h3 : (0 : ℚ) ≤ max 0 (readZero D_values el) := le_max_left _ _
  apply div_nonneg
  · nlinarith
  · nlinarith

/-- The unrounded organic output is non-negative. -/
theorem stageCoutOrg_nonneg (aq_in_conc org_in_conc D_values : InMap) (R : ℚ) (hR : 0 ≤ R)
    (el : String) : 0 ≤ stageCoutOrg aq_in_conc org_in_conc D_values R el :=
  mul_nonneg (le_max_left _ _) (stageCoutAq_nonneg aq_in_conc org_in_conc D_values R hR el)

/-!
Claim theorems.
-/

/-- Claim C1: for every pair of input maps, distribution coefficients and
phase ratio, and for each tracked species, the simulator output is
round4((Cin_aq + R_safe*Cin_org)/(1 + R_safe*D)) on the aqueous side and
round4(D * unrounded aqueous value) on the organic side, where the inputs
are sanitized (missing/NaN/negative clamped to 0) and
R_safe = max(1e-4, NaN phase ratio replaced by 1.0); rounding is applied
independently as the final step, and the organic output is computed from
the unrounded aqueous value. -/
theorem C1_stage_formula (aq_in_conc org_in_conc : InMap) (phase_rat : JVal)
    (D_values : InMap) (el : String) (hel : el ∈ targetElements) :
    getConc (simulate_sx_stage aq_in_conc org_in_conc phase_rat D_values).aqOut el
        = some (toFixedVal 4
            (stageCoutAq aq_in_conc org_in_conc D_values (safeROf phase_rat) el))
    ∧ getConc (simulate_sx_stage aq_in_conc org_in_conc phase_rat D_values).orgOut el
        = some (toFixedVal 4
            (stageCoutOrg aq_in_conc org_in_conc D_values (safeROf phase_rat) el)) := by
  rw [simulate_aqOut_eq, simulate_orgOut_eq]
  exact ⟨getConc_map_of_mem _ _ _ hel, getConc_map_of_mem _ _ _ hel⟩

/-- Witness for C1 at the concrete input aqIn = one key Nd = 10, orgIn
empty, phase ratio 1, D with Nd = 1, species Nd. -/
theorem C1_stage_formula_witness :
    (("Nd" : String) ∈ targetElements)
    ∧ (getConc (simulate_sx_stage (mapNd 10) mapEmpty (JVal.num 1) (mapNd 1)).aqOut "Nd"
          = some (toFixedVal 4
              (stageCoutAq (mapNd 10) mapEmpty (mapNd 1) (safeROf (JVal.num 1)) "Nd"))
       ∧ getConc (simulate_sx_stage (mapNd 10) mapEmpty (JVal.num 1) (mapNd 1)).orgOut "Nd"
          = some (toFixedVal 4
              (stageCoutOrg (mapNd 10) mapEmpty (mapNd 1) (safeROf (JVal.num 1)) "Nd"))) :=
  ⟨by decide, C1_stage_formula (mapNd 10) mapEmpty (JVal.num 1) (mapNd 1) "Nd" (by decide)⟩

/-- Claim C2: mass balance.  In unrounded arithmetic the stage conserves
mass exactly: Cin_aq + R_safe*Cin_org = Cout_aq + R_safe*Cout_org; the
rounded outputs conserve it within (1 + R_safe)/20000 in general, and in
the spec's instance (feed Nd = 100, R = 2, D = 2.5) the rounded outputs
satisfy |100 - (aqOut + 2*orgOut)| < 0.1. -/
theorem C2_mass_balance :
    (∀ aq_in_conc org_in_conc D_values phase_rat el,
      max 0 (readZero aq_in_conc el) + safeROf phase_rat * max 0 (readZero org_in_conc el)
        = stageCoutAq aq_in_conc org_in_conc D_values (safeROf phase_rat) el
            + safeROf phase_rat
                * stageCoutOrg aq_in_conc org_in_conc D_values (safeROf phase_rat) el)
    ∧ (∀ aq_in_conc org_in_conc D_values phase_rat el,
      |(max 0 (readZero aq_in_conc el)
            + safeROf phase_rat * max 0 (readZero org_in_conc el))
          - (toFixedVal 4 (stageCoutAq aq_in_conc org_in_conc D_values (safeROf phase_rat) el)
              + safeROf phase_rat
                  * toFixedVal 4
                      (stageCoutOrg aq_in_conc org_in_conc D_values (safeROf phase_rat) el))|
        ≤ (1 + safeROf phase_rat) * (1 / 20000))
    ∧ getConc (simulate_sx_stage (mapNd 100) mapEmpty (JVal.num 2) (mapNd (5 / 2))).aqOut "Nd"
        = some (166667 / 10000)
    ∧ getConc (simulate_sx_stage (mapNd 100) mapEmpty (JVal.num 2) (mapNd (5 / 2))).orgOut "Nd"
        = some (416667 / 10000)
    ∧ |(100 : ℚ) - (166667 / 10000 + 2 * (416667 / 10000))| < 1 / 10 := by
  have hR2 : safeROf (JVal.num 2) = 2 := max_eq_right (by norm_num)
  have hA : stageCoutAq (mapNd 100) mapEmpty (mapNd (5 / 2)) (safeROf (JVal.num 2)) "Nd"
      = 50 / 3 := by
    rw [hR2]
    norm_num [stageCoutAq, readZero, mapNd, mapEmpty, JVal.orZero, max_def]
  have hO : stageCoutOrg (mapNd 100) mapEmpty (mapNd (5 / 2)) (safeROf (JVal.num 2)) "Nd"
      = 125 / 3 := by
    unfold stageCoutOrg
    rw [hA]
    norm_num [readZero, mapNd, JVal.orZero, max_def]
  have hvalA : toFixedVal 4 ((50 : ℚ) / 3) = 166667 / 10000 := by
    rw [toFixedVal_eval 4 (50 / 3) 166667 (by norm_num) (by norm_num)]
    norm_num
  have hvalO : toFixedVal 4 ((125 : ℚ) / 3) = 416667 / 10000 := by
    rw [toFixedVal_eval 4 (125 / 3) 416667 (by norm_num) (by norm_num)]
    norm_num
  refine ⟨?_, ?_, ?_, ?_, by rw [abs_lt]; constructor <;> norm_num⟩
  · intro aq org D pr el
    exact stage_mass_balance aq org D (safeROf pr) (safeROf_pos pr).le el
  · intro aq org D pr el
    have hR : 0 ≤ safeROf pr := (safeROf_pos pr).le
    have hbal := stage_mass_balance aq org D (safeROf pr) hR el
    have h1 : |toFixedVal 4 (stageCoutAq aq org D (safeROf pr) el)
        - stageCoutAq aq org D (safeROf pr) el| ≤ 1 / 20000 := by
      calc |toFixedVal 4 (stageCoutAq aq org D (safeROf pr) el)
            - stageCoutAq aq org D (safeROf pr) el|
          ≤ 1 / (2 * 10 ^ 4) := toFixedVal_abs_sub_le 4 _
        _ = 1 / 20000 := by norm_num
    have h2 : |toFixedVal 4 (stageCoutOrg aq org D (safeROf pr) el)
        - stageCoutOrg aq org D (safeROf pr) el| ≤ 1 / 20000 := by
      calc |toFixedVal 4 (stageCoutOrg aq org D (safeROf pr) el)
            - stageCoutOrg aq org D (safeROf pr) el|
          ≤ 1 / (2 * 10 ^ 4) := toFixedVal_abs_sub_le 4 _
        _ = 1 / 20000 := by norm_num
    rw [hbal]
    calc |(stageCoutAq aq org D (safeROf pr) el
            + safeROf pr * stageCoutOrg aq org D (safeROf pr) el)
          - (toFixedVal 4 (stageCoutAq aq org D (safeROf pr) el)
              + safeROf pr * toFixedVal 4 (stageCoutOrg aq org D (safeROf pr) el))|
        = |(stageCoutAq aq org D (safeROf pr) el
              - toFixedVal 4 (stageCoutAq aq org D (safeROf pr) el))
            + safeROf pr * (stageCoutOrg aq org D (safeROf pr) el
              - toFixedVal 4 (stageCoutOrg aq org D (safeROf pr) el))| := by
          congr 1
          ring
      _ ≤ |stageCoutAq aq org D (safeROf pr) el
              - toFixedVal 4 (stageCoutAq aq org D (safeROf pr) el)|
            + |safeROf pr * (stageCoutOrg aq org D (safeROf pr) el
              - toFixedVal 4 (stageCoutOrg aq org D (safeROf pr) el))| := abs_add _ _
      _ = |stageCoutAq aq org D (safeROf pr) el
              - toFixedVal 4 (stageCoutAq aq org D (safeROf pr) el)|
            + safeROf pr * |stageCoutOrg aq org D (safeROf pr) el
              - toFixedVal 4 (stageCoutOrg aq org D (safeROf pr) el)| := by
          rw [abs_mul, abs_of_nonneg hR]
      _ ≤ 1 / 20000 + safeROf pr * (1 / 20000) := by
          apply add_le_add
          · rw [abs_sub_comm]
            exact h1
          · apply mul_le_mul_of_nonneg_left _ hR
            rw [abs_sub_comm]
            exact h2
      _ = (1 + safeROf pr) * (1 / 20000) := by ring
  · have hlook := getConc_map_of_mem
      (fun el => toFixedVal 4
        (stageCoutAq (mapNd 100) mapEmpty (mapNd (5 / 2)) (safeROf (JVal.num 2)) el))
      targetElements "Nd" (by decide)
    rw [simulate_aqOut_eq, hlook]
    simp only [hA, hvalA]
  · have hlook := getConc_map_of_mem
      (fun el => toFixedVal 4
        (stageCoutOrg (mapNd 100) mapEmpty (mapNd (5 / 2)) (safeROf (JVal.num 2)) el))
      targetElements "Nd" (by decide)
    rw [simulate_orgOut_eq, hlook]
    simp only [hO, hvalO]

/-- Claim C3: compliance is decided by strict inequality on the sanitized
unrounded total against the sanitized limit, equality being
non-compliant, with the three boundary instances of the spec; the finding
string is the pass message exactly when compliant and the exceed message
otherwise. -/
theorem C3_compliance_strict :
    (∀ th_conc u_conc limit,
      (check_th_u_compliance th_conc u_conc limit).is_compliant = true
        ↔ max 0 th_conc.orZero + max 0 u_conc.orZero < safeLimitOf limit)
    ∧ (check_th_u_compliance (JVal.num (4 / 100)) (JVal.num (5 / 100))
        (JVal.num (1 / 10))).is_compliant = true
    ∧ (check_th_u_compliance (JVal.num (6 / 100)) (JVal.num (5 / 100))
        (JVal.num (1 / 10))).is_compliant = false
    ∧ (check_th_u_compliance (JVal.num (5 / 100)) (JVal.num (5 / 100))
        (JVal.num (1 / 10))).is_compliant = false
    ∧ (∀ th_conc u_conc limit,
      ((check_th_u_compliance th_conc u_conc limit).finding
          = "Meets NCMM Th/U safety requirements."
        ↔ (check_th_u_compliance th_conc u_conc limit).is_compliant = true)
      ∧ ((check_th_u_compliance th_conc u_conc limit).finding
          = "EXCEEDS Regulatory Limit. Adjust flowsheet."
        ↔ (check_th_u_compliance th_conc u_conc limit).is_compliant = false)) := by
  refine ⟨?_, ?_, ?_, ?_, ?_⟩
  · intro th u lim
    constructor
    · intro h
      exact of_decide_eq_true h
    · intro h
      exact decide_eq_true h
  · exact decide_eq_true (by norm_num [JVal.orZero, safeLimitOf, max_def])
  · exact decide_eq_false (by norm_num [JVal.orZero, safeLimitOf, max_def])
  · exact decide_eq_false (by norm_num [JVal.orZero, safeLimitOf, max_def])
  · intro th u lim
    have hfind : (check_th_u_compliance th u lim).finding
        = if (check_th_u_compliance th u lim).is_compliant
          then "Meets NCMM Th/U safety requirements."
          else "EXCEEDS Regulatory Limit. Adjust flowsheet." := rfl
    cases hb : (check_th_u_compliance th u lim).is_compliant with
    | false =>
      rw [hfind, hb]
      simp
    | true =>
      rw [hfind, hb]
      simp

/-- Claim C4: for every input, both output maps have exactly the key
list Nd, Fe, Th, U; species outside the tracked set never appear in the
output; and a tracked species absent from all inputs gets output 0, as
with Th here. -/
theorem C4_output_keys :
    (∀ aq_in_conc org_in_conc phase_rat D_values,
      (simulate_sx_stage aq_in_conc org_in_conc phase_rat D_values).aqOut.map Prod.fst
          = targetElements
      ∧ (simulate_sx_stage aq_in_conc org_in_conc phase_rat D_values).orgOut.map Prod.fst
          = targetElements)
    ∧ (∀ aq_in_conc org_in_conc phase_rat D_values el, el ∉ targetElements →
      getConc (simulate_sx_stage aq_in_conc org_in_conc phase_rat D_values).aqOut el = none
      ∧ getConc (simulate_sx_stage aq_in_conc org_in_conc phase_rat D_values).orgOut el
          = none)
    ∧ getConc (simulate_sx_stage (mapNd 5) mapEmpty (JVal.num 1) (mapNd 1)).aqOut "Th"
        = some 0 := by
  refine ⟨?_, ?_, ?_⟩
  · intro aq org pr D
    rw [simulate_aqOut_eq, simulate_orgOut_eq]
    exact ⟨keys_map_pair _ _, keys_map_pair _ _⟩
  · intro aq org pr D el hel
    rw [simulate_aqOut_eq, simulate_orgOut_eq]
    exact ⟨getConc_map_of_not_mem _ _ _ hel, getConc_map_of_not_mem _ _ _ hel⟩
  · have hA : stageCoutAq (mapNd 5) mapEmpty (mapNd 1) (safeROf (JVal.num 1)) "Th" = 0 := by
      unfold stageCoutAq
      rw [readZero_mapNd_ne 5 "Th" (by decide), readZero_mapEmpty,
        readZero_mapNd_ne 1 "Th" (by decide)]
      simp
    have hval : toFixedVal 4 (0 : ℚ) = 0 := by
      rw [toFixedVal_eval 4 0 0 (by norm_num) (by norm_num)]
      norm_num
    have hlook := getConc_map_of_mem
      (fun el => toFixedVal 4
        (stageCoutAq (mapNd 5) mapEmpty (mapNd 1) (safeROf (JVal.num 1)) el))
      targetElements "Th" (by decide)
    rw [simulate_aqOut_eq, hlook]
    simp only [hA, hval]

/-- Witness for C4 at the untracked species name Xx, which is absent from
both outputs. -/
theorem C4_output_keys_witness :
    (("Xx" : String) ∉ targetElements)
    ∧ (getConc (simulate_sx_stage mapEmpty mapEmpty (JVal.num 1) mapEmpty).aqOut "Xx" = none
       ∧ getConc (simulate_sx_stage mapEmpty mapEmpty (JVal.num 1) mapEmpty).orgOut "Xx"
          = none) :=
  ⟨by decide, C4_output_keys.2.1 mapEmpty mapEmpty (JVal.num 1) mapEmpty "Xx" (by decide)⟩

/-- Claim C5: the recommended setpoint equals
currentPH + 0.5*(targetPH - currentPH) rounded to 2 decimals, with NaN
currentPH sanitized to 0 and NaN targetPH sanitized to 1.8, independently
of the deterministic flag and of the noise sample; both spec instances
give 1.5. -/
theorem C5_setpoint_formula :
    (∀ current_pH target_optimal_pH deterministic rand,
      (prescriptive_setpoint_optimizer current_pH target_optimal_pH deterministic
          rand).new_pH_setpoint
        = toFixedVal 2 (cPHOf current_pH
            + 5 / 10 * (tPHOf target_optimal_pH - cPHOf current_pH)))
    ∧ (prescriptive_setpoint_optimizer (JVal.num 1) (JVal.num 2) true 0).new_pH_setpoint
        = 3 / 2
    ∧ (prescriptive_setpoint_optimizer (JVal.num 2) (JVal.num 1) true 0).new_pH_setpoint
        = 3 / 2 := by
  have hgen : ∀ c t d r, (prescriptive_setpoint_optimizer c t d r).new_pH_setpoint
      = toFixedVal 2 (cPHOf c + (tPHOf t - cPHOf c) * (5 / 10)) := fun c t d r => rfl
  refine ⟨?_, ?_, ?_⟩
  · intro c t d r
    rw [hgen]
    congr 1
    ring
  · rw [hgen]
    have h : cPHOf (JVal.num 1) + (tPHOf (JVal.num 2) - cPHOf (JVal.num 1)) * (5 / 10)
        = 3 / 2 := by
      norm_num [cPHOf, tPHOf]
    rw [h, toFixedVal_eval 2 (3 / 2) 150 (by norm_num) (by norm_num)]
    norm_num
  · rw [hgen]
    have h : cPHOf (JVal.num 2) + (tPHOf (JVal.num 1) - cPHOf (JVal.num 2)) * (5 / 10)
        = 3 / 2 := by
      norm_num [cPHOf, tPHOf]
    rw [h, toFixedVal_eval 2 (3 / 2) 150 (by norm_num) (by norm_num)]
    norm_num

/-- Claim C6: the action label is determined solely by
step = 0.5*(sanitized target - sanitized current) under a strict ±0.01
dead-band: Increase iff step > 0.01, Adjust/Lower iff step < -0.01, and
Maintain otherwise (including at exactly ±0.01). -/
theorem C6_action_deadband :
    ∀ current_pH target_optimal_pH deterministic rand,
      ((prescriptive_setpoint_optimizer current_pH target_optimal_pH deterministic
            rand).action = "Increase Acid/Base Flow (Raise pH)"
        ↔ (tPHOf target_optimal_pH - cPHOf current_pH) * (5 / 10) > 1 / 100)
      ∧ ((prescriptive_setpoint_optimizer current_pH target_optimal_pH deterministic
            rand).action = "Adjust Acid/Base Flow (Lower pH)"
        ↔ (tPHOf target_optimal_pH - cPHOf current_pH) * (5 / 10) < -(1 / 100))
      ∧ ((prescriptive_setpoint_optimizer current_pH target_optimal_pH deterministic
            rand).action = "Maintain pH"
        ↔ ¬(tPHOf target_optimal_pH - cPHOf current_pH) * (5 / 10) > 1 / 100
          ∧ ¬(tPHOf target_optimal_pH - cPHOf current_pH) * (5 / 10) < -(1 / 100)) := by
  intro c t d r
  have hact : (prescriptive_setpoint_optimizer c t d r).action
      = (if (tPHOf t - cPHOf c) * (5 / 10) > 1 / 100
          then "Increase Acid/Base Flow (Raise pH)"
         else if (tPHOf t - cPHOf c) * (5 / 10) < -(1 / 100)
          then "Adjust Acid/Base Flow (Lower pH)"
         else "Maintain pH") := rfl
  rw [hact]
  by_cases h1 : (tPHOf t - cPHOf c) * (5 / 10) > 1 / 100
  · rw [if_pos h1]
    refine ⟨iff_of_true rfl h1, iff_of_false (by decide) (by linarith), iff_of_false (by decide)
      (fun hmn => hmn.1 h1)⟩
  · rw [if_neg h1]
    by_cases h2 : (tPHOf t - cPHOf c) * (5 / 10) < -(1 / 100)
    · rw [if_pos h2]
      refine ⟨iff_of_false (by decide) h1, iff_of_true rfl h2, iff_of_false (by decide)
        (fun hmn => hmn.2 h2)⟩
    · rw [if_neg h2]
      exact ⟨iff_of_false (by decide) h1, iff_of_false (by decide) h2,
        iff_of_true rfl ⟨h1, h2⟩⟩

/-- Claim C7: for any noise sample with noise in [-0.025, 0.025], the
predicted efficiency of a stochastic call is exactly the clamp of
0.8 - 0.2*(currentPH - targetPH)^2 + noise into [0, 1], hence lies in
[0, 1]. -/
theorem C7_efficiency_bounds (current_pH target_optimal_pH : JVal) (rand : ℚ)
    (h1 : -(25 / 1000) ≤ (rand - 5 / 10) * (5 / 100))
    (h2 : (rand - 5 / 10) * (5 / 100) ≤ 25 / 1000) :
    (prescriptive_setpoint_optimizer current_pH target_optimal_pH false
        rand).predicted_efficiency
      = max 0 (min 1 (8 / 10 - 2 / 10 * (cPHOf current_pH - tPHOf target_optimal_pH) ^ 2
          + (rand - 5 / 10) * (5 / 100)))
    ∧ 0 ≤ (prescriptive_setpoint_optimizer current_pH target_optimal_pH false
        rand).predicted_efficiency
    ∧ (prescriptive_setpoint_optimizer current_pH target_optimal_pH false
        rand).predicted_efficiency ≤ 1 := by
  have heq : (prescriptive_setpoint_optimizer current_pH target_optimal_pH false
      rand).predicted_efficiency
      = max 0 (min 1 (8 / 10 - 2 / 10 * (cPHOf current_pH - tPHOf target_optimal_pH) ^ 2
          + (rand - 5 / 10) * (5 / 100))) := rfl
  refine ⟨heq, ?_, ?_⟩
  · rw [heq]
    exact le_max_left _ _
  · rw [heq]
    exact max_le (by norm_num) (min_le_left _ _)

/-- Witness for C7 at currentPH = targetPH = 1.8 and the middle noise
sample rand = 1/2 (noise 0). -/
theorem C7_efficiency_bounds_witness :
    (-(25 / 1000) ≤ ((1 : ℚ) / 2 - 5 / 10) * (5 / 100))
    ∧ (((1 : ℚ) / 2 - 5 / 10) * (5 / 100) ≤ 25 / 1000)
    ∧ ((prescriptive_setpoint_optimizer (JVal.num (18 / 10)) (JVal.num (18 / 10)) false
          (1 / 2)).predicted_efficiency
        = max 0 (min 1 (8 / 10
            - 2 / 10 * (cPHOf (JVal.num (18 / 10)) - tPHOf (JVal.num (18 / 10))) ^ 2
            + ((1 : ℚ) / 2 - 5 / 10) * (5 / 100)))
      ∧ 0 ≤ (prescriptive_setpoint_optimizer (JVal.num (18 / 10)) (JVal.num (18 / 10)) false
          (1 / 2)).predicted_efficiency
      ∧ (prescriptive_setpoint_optimizer (JVal.num (18 / 10)) (JVal.num (18 / 10)) false
          (1 / 2)).predicted_efficiency ≤ 1) :=
  ⟨by norm_num, by norm_num,
    C7_efficiency_bounds (JVal.num (18 / 10)) (JVal.num (18 / 10)) (1 / 2) (by norm_num)
      (by norm_num)⟩

/-- Claim C8: the denominator of the stage formula is always at least 1,
and every value occurring in either output map is non-negative (hence
finite in the exact-arithmetic model); negative inputs are clamped, e.g.
aqIn Nd = -10 yields aqueous output 0. -/
theorem C8_outputs_nonneg :
    (∀ phase_rat D_values el, 1 ≤ 1 + safeROf phase_rat * max 0 (readZero D_values el))
    ∧ (∀ aq_in_conc org_in_conc phase_rat D_values el q,
        getConc (simulate_sx_stage aq_in_conc org_in_conc phase_rat D_values).aqOut el
            = some q → 0 ≤ q)
    ∧ (∀ aq_in_conc org_in_conc phase_rat D_values el q,
        getConc (simulate_sx_stage aq_in_conc org_in_conc phase_rat D_values).orgOut el
            = some q → 0 ≤ q)
    ∧ getConc (simulate_sx_stage (mapNd (-10)) mapEmpty (JVal.num 1) (mapNd 1)).aqOut "Nd"
        = some 0 := by
  refine ⟨?_, ?_, ?_, ?_⟩
  · intro pr D el
    have hR := (safeROf_pos pr).le
    have hD : (0 : ℚ) ≤ max 0 (readZero D el) := le_max_left _ _
    nlinarith
  · intro aq org pr D el q hq
    by_cases hel : el ∈ targetElements
    · have hlook := getConc_map_of_mem
        (fun e => toFixedVal 4 (stageCoutAq aq org D (safeROf pr) e)) targetElements el hel
      rw [simulate_aqOut_eq, hlook] at hq
      injection hq with h
      rw [← h]
      exact toFixedVal_nonneg _ _ (stageCoutAq_nonneg aq org D _ (safeROf_pos pr).le el)
    · rw [simulate_aqOut_eq, getConc_map_of_not_mem _ _ _ hel] at hq
      cases hq
  · intro aq org pr D el q hq
    by_cases hel : el ∈ targetElements
    · have hlook := getConc_map_of_mem
        (fun e => toFixedVal 4 (stageCoutOrg aq org D (safeROf pr) e)) targetElements el hel
      rw [simulate_orgOut_eq, hlook] at hq
      injection hq with h
      rw [← h]
      exact toFixedVal_nonneg _ _ (stageCoutOrg_nonneg aq org D _ (safeROf_pos pr).le el)
    · rw [simulate_orgOut_eq, getConc_map_of_not_mem _ _ _ hel] at hq
      cases hq
  · have hA : stageCoutAq (mapNd (-10)) mapEmpty (mapNd 1) (safeROf (JVal.num 1)) "Nd"
        = 0 := by
      unfold stageCoutAq
      rw [readZero_mapNd (-10), readZero_mapEmpty, readZero_mapNd 1]
      have hneg : max (0 : ℚ) (-10) = 0 := max_eq_left (by norm_num)
      rw [hneg]
      simp
    have hlook := getConc_map_of_mem
      (fun e => toFixedVal 4
        (stageCoutAq (mapNd (-10)) mapEmpty (mapNd 1) (safeROf (JVal.num 1)) e))
      targetElements "Nd" (by decide)
    rw [simulate_aqOut_eq, hlook]
    simp only [hA, toFixedVal_zero]

/-- Witness for C8 at the negative-clamping instance: the looked-up value
0 is non-negative. -/
theorem C8_outputs_nonneg_witness :
    getConc (simulate_sx_stage (mapNd (-10)) mapEmpty (JVal.num 1) (mapNd 1)).aqOut "Nd"
        = some 0
    ∧ (0 : ℚ) ≤ 0 :=
  ⟨C8_outputs_nonneg.2.2.2,
    C8_outputs_nonneg.2.1 (mapNd (-10)) mapEmpty (JVal.num 1) (mapNd 1) "Nd" 0
      C8_outputs_nonneg.2.2.2⟩

/-- Claim C9: the reported total is the 4-decimal rounding of the
sanitized sum, and the two spec instances evaluate to exactly 0.3 and
0.2. -/
theorem C9_total_rounded :
    (∀ th_conc u_conc limit,
      (check_th_u_compliance th_conc u_conc limit).total_conc_gl
        = toFixedVal 4 (max 0 th_conc.orZero + max 0 u_conc.orZero))
    ∧ (check_th_u_compliance (JVal.num (1 / 10)) (JVal.num (2 / 10))
        (JVal.num (5 / 10))).total_conc_gl = 3 / 10
    ∧ (check_th_u_compliance (JVal.num (-5)) (JVal.num (2 / 10))
        (JVal.num (5 / 10))).total_conc_gl = 2 / 10 := by
  have hgen : ∀ th u lim, (check_th_u_compliance th u lim).total_conc_gl
      = toFixedVal 4 (max 0 th.orZero + max 0 u.orZero) := fun th u lim => rfl
  refine ⟨hgen, ?_, ?_⟩
  · rw [hgen]
    have h : max (0 : ℚ) ((JVal.num (1 / 10)).orZero) + max 0 ((JVal.num (2 / 10)).orZero)
        = 3 / 10 := by
      norm_num [JVal.orZero, max_def]
    rw [h, toFixedVal_eval 4 (3 / 10) 3000 (by norm_num) (by norm_num)]
    norm_num
  · rw [hgen]
    have h : max (0 : ℚ) ((JVal.num (-5 : ℚ)).orZero) + max 0 ((JVal.num (2 / 10)).orZero)
        = 2 / 10 := by
      norm_num [JVal.orZero, max_def]
    rw [h, toFixedVal_eval 4 (2 / 10) 2000 (by norm_num) (by norm_num)]
    norm_num

/-- Claim C10: a non-NaN limit that is zero or negative can never be
strictly exceeded from below by the non-negative sanitized total, so the
checker always reports non-compliance. -/
theorem C10_nonpositive_limit (th_conc u_conc : JVal) (lim : ℚ) (hlim : lim ≤ 0) :
    (check_th_u_compliance th_conc u_conc (JVal.num lim)).is_compliant = false := by
  apply decide_eq_false
  intro hlt
  have h1 : (0 : ℚ) ≤ max 0 th_conc.orZero := le_max_left _ _
  have h2 : (0 : ℚ) ≤ max 0 u_conc.orZero := le_max_left _ _
  have hsl : safeLimitOf (JVal.num lim) = lim := rfl
  rw [hsl] at hlt
  linarith

/-- Witness for C10 at limit 0 with inputs 1 and 1. -/
theorem C10_nonpositive_limit_witness :
    ((0 : ℚ) ≤ 0)
    ∧ (check_th_u_compliance (JVal.num 1) (JVal.num 1) (JVal.num 0)).is_compliant = false :=
  ⟨le_refl 0, C10_nonpositive_limit (JVal.num 1) (JVal.num 1) 0 (le_refl 0)⟩

end HDT
